import Mathlib

/-!
Verification development for the `console` package (a Python port of the
Symfony2 Console component). The embedding below follows the two core
source files:

* `src/console/input/argv_input.py` — the tokenizer/binder (`ArgvInput`);
* `src/console/application.py`     — the command registry and resolver
  (`Application.add/get/find/find_namespace/get_abbreviations/find_alternatives`).

Python strings are modelled as `String` manipulated through their
underlying `List Char` (`s.data`), matching Python's sequence-of-code-points
semantics. Python dictionaries are modelled as insertion-ordered association
lists (a deterministic refinement of CPython 2's hash-ordered dicts), and
`list(set(xs))` as first-occurrence deduplication. Python exceptions are
modelled as `Except` error values; the distinct runtime failures
(`AttributeError` on `None.startswith`, `IndexError` on `pop` from an empty
list) get their own error constructors because the code can actually reach
them.

Classes of this repository that are not under `src/` (`input.py`,
`input_definition.py`, `input_option.py`, `input_argument.py`,
`help_command.py`, and the external `Levenshtein.distance`) are modelled
from the spec; each such definition carries a doc comment starting with
`Modelled from the spec:`.
-/

/-! ### Python string primitives (on the underlying character lists) -/

/-- Number of characters of a Python string (`len(s)`). -/
def pyLen (s : String) : Nat := s.data.length

/-- Boolean prefix test on character lists. -/
def isPfx : List Char → List Char → Bool
  | [], _ => true
  | _ :: _, [] => false
  | a :: as, b :: bs => a = b && isPfx as bs

/-- Python `s.startswith(pre)` / `s.find(pre) == 0`. -/
def pyStarts (s pre : String) : Bool := isPfx pre.data s.data

/-- Python slice `s[:n]`. -/
def pyTakeStr (s : String) (n : Nat) : String := String.mk (s.data.take n)

/-- Python slice `s[n:]`. -/
def pyDropStr (s : String) (n : Nat) : String := String.mk (s.data.drop n)

/-- Index of the first occurrence of a character, if any. -/
def findCharIdx (c : Char) : List Char → Option Nat
  | [] => Option.none
  | d :: rest => if d = c then Option.some 0 else (findCharIdx c rest).map (· + 1)

/-- Python `s.find('=')`, with `None` standing for `-1`. -/
def pyFindEq (s : String) : Option Nat := findCharIdx '=' s.data

/-- Substring test on character lists (`needle` occurs inside `hay`). -/
def hasSub (hay needle : List Char) : Bool :=
  match hay with
  | [] => needle.isEmpty
  | _ :: t => isPfx needle hay || hasSub t needle

/-- Python `hay.find(needle) != -1`: substring containment. -/
def pyContains (hay needle : String) : Bool := hasSub hay.data needle.data

/-- Python `s.split(':')` on the character list. -/
def splitColonL : List Char → List (List Char)
  | [] => [[]]
  | c :: rest =>
    match splitColonL rest with
    | [] => [[c]]
    | g :: gs => if c = ':' then [] :: g :: gs else (c :: g) :: gs

/-- Python `s.split(':')`. -/
def pySplit (s : String) : List String := (splitColonL s.data).map String.mk

/-- Python `':'.join(l)`. -/
def joinColon : List String → String
  | [] => ""
  | [s] => s
  | s :: rest => s ++ ":" ++ joinColon rest

/-- First-occurrence deduplication, modelling Python's `list(set(xs))`
(a deterministic refinement: CPython 2 leaves the order unspecified). -/
def pyDedup (l : List String) : List String :=
  l.foldl (fun acc x => if x ∈ acc then acc else acc ++ [x]) []

/-! ### Insertion-ordered dictionaries -/

namespace Dict

/-- Python `d[k]` lookup (`None` when the key is absent). -/
def lookup {α : Type} (d : List (String × α)) (k : String) : Option α :=
  match d with
  | [] => Option.none
  | (k', v) :: rest => if k' = k then Option.some v else lookup rest k

/-- Python `k in d`. -/
def hasKey {α : Type} (d : List (String × α)) (k : String) : Bool :=
  (lookup d k).isSome

/-- Python `d[k] = v`: update in place if the key exists, else append
(the insertion-ordered dict semantics). -/
def insert {α : Type} (d : List (String × α)) (k : String) (v : α) :
    List (String × α) :=
  match d with
  | [] => [(k, v)]
  | (k', v') :: rest =>
    if k' = k then (k', v) :: rest else (k', v') :: insert rest k v

/-- Python `d.values()` in insertion order. -/
def values {α : Type} (d : List (String × α)) : List α := d.map (·.2)

theorem lookup_insert_self {α : Type} (d : List (String × α)) (k : String) (v : α) :
    lookup (insert d k v) k = Option.some v := by
  induction d with
  | nil => simp [insert, lookup]
  | cons p rest ih =>
    obtain ⟨k', v'⟩ := p
    by_cases h : k' = k <;> simp [insert, lookup, h, ih]

theorem lookup_insert_ne {α : Type} (d : List (String × α)) (k q : String) (v : α)
    (h : q ≠ k) : lookup (insert d k v) q = lookup d q := by
  induction d with
  | nil => simp [insert, lookup, Ne.symm h]
  | cons p rest ih =>
    obtain ⟨k', v'⟩ := p
    by_cases hk : k' = k
    · subst hk
      simp [insert, lookup, Ne.symm h]
    · by_cases hq : k' = q <;> simp [insert, lookup, hk, hq, ih, h]

theorem insert_eq_append {α : Type} (d : List (String × α)) (k : String) (v : α)
    (h : lookup d k = Option.none) : insert d k v = d ++ [(k, v)] := by
  induction d with
  | nil => simp [insert]
  | cons p rest ih =>
    obtain ⟨k', v'⟩ := p
    by_cases hk : k' = k
    · simp [lookup, hk] at h
    · simp [lookup, hk] at h
      simp [insert, hk, ih h]

end Dict

/-! ### Input data model

The classes `Input`, `InputDefinition`, `InputOption` and `InputArgument`
live in files of this repository that are not under `src/` (they are only
imported there), so they are modelled from the spec (§3, §4.1). -/

/-- A bound argument/option value: Python `None`, a string, a boolean
presence marker, or a list accumulated by an array-cardinality slot. -/
inductive Val : Type where
  | none : Val
  | str : String → Val
  | bool : Bool → Val
  | list : List Val → Val

/-- Python `value is None`. -/
def Val.isNone : Val → Bool
  | Val.none => true
  | _ => false

/-- Modelled from the spec: option cardinality (§3: "cardinality ∈
{none, required-value, optional-value, array}"; the array flag is kept
separately because array options still require or accept a value). -/
inductive OptMode : Type where
  | valueNone : OptMode
  | valueRequired : OptMode
  | valueOptional : OptMode

/-- Modelled from the spec: `InputOption` (file `input_option.py`, absent
from `src/`): name, optional single-character shortcut, cardinality and
default (§3). Names and shortcuts are stored without their leading
hyphens. -/
structure InputOption where
  name : String
  shortcut : Option String := Option.none
  mode : OptMode := OptMode.valueNone
  isArray : Bool := false
  default : Val := Val.none

namespace InputOption

/-- Modelled from the spec: an option accepts a value iff its cardinality
is required-value or optional-value (§4.2). -/
def accept_value (o : InputOption) : Bool :=
  match o.mode with
  | OptMode.valueNone => false
  | _ => true

/-- Modelled from the spec: value-required cardinality test. -/
def is_value_required (o : InputOption) : Bool :=
  match o.mode with
  | OptMode.valueRequired => true
  | _ => false

/-- Modelled from the spec: value-optional cardinality test. -/
def is_value_optional (o : InputOption) : Bool :=
  match o.mode with
  | OptMode.valueOptional => true
  | _ => false

end InputOption

/-- Modelled from the spec: `InputArgument` (file `input_argument.py`,
absent from `src/`): name and cardinality ∈ {required, optional, array}
(§3). -/
structure InputArgument where
  name : String
  required : Bool := false
  isArray : Bool := false

/-- Modelled from the spec: `InputDefinition` (file `input_definition.py`,
absent from `src/`): an ordered sequence of argument specs (order is
binding order) and a collection of option specs (§3). -/
structure InputDefinition where
  arguments : List InputArgument := []
  options : List InputOption := []

namespace InputDefinition

/-- Placeholder spec returned by the total `get_argument` out of bounds
(the code only calls it under a `has_argument` guard). -/
def dummyArgument : InputArgument := { name := "" }

/-- Placeholder spec returned by the total option getters when the lookup
fails (the code only calls them under `has_option`/`has_shortcut` guards). -/
def dummyOption : InputOption := { name := "" }

/-- Modelled from the spec: `has_argument` for a positional index (§4.1
`get_argument(index_or_name)`; the tokenizer queries by index). -/
def has_argument (d : InputDefinition) (i : Nat) : Bool := i < d.arguments.length

/-- Modelled from the spec: `get_argument` by positional index. -/
def get_argument (d : InputDefinition) (i : Nat) : InputArgument :=
  d.arguments.getD i dummyArgument

/-- Modelled from the spec: is an option with this name declared? -/
def has_option (d : InputDefinition) (name : String) : Bool :=
  d.options.any (·.name = name)

/-- Modelled from the spec: option spec by name. -/
def get_option (d : InputDefinition) (name : String) : InputOption :=
  (d.options.find? (·.name = name)).getD dummyOption

/-- Modelled from the spec: is an option with this shortcut declared?
(§4.1 `has_shortcut(char)`). -/
def has_shortcut (d : InputDefinition) (s : String) : Bool :=
  d.options.any (·.shortcut = Option.some s)

/-- Modelled from the spec: option spec by shortcut (§4.1
`get_option_for_shortcut(char)`). -/
def get_option_for_shortcut (d : InputDefinition) (s : String) : InputOption :=
  (d.options.find? (·.shortcut = Option.some s)).getD dummyOption

end InputDefinition

/-! ### The tokenizer/binder: `src/console/input/argv_input.py` -/

/-- The Python exceptions the tokenizer can raise. `attributeError` is the
`AttributeError` from evaluating `None.startswith('-')` (or `.append` on a
non-list); `indexError` is `IndexError` from `pop(0)` on an empty list. -/
inductive ParseError : Type where
  | longOptionDoesNotExist : String → ParseError
  | shortOptionDoesNotExist : String → ParseError
  | optionRequiresValue : String → ParseError
  | tooManyArguments : ParseError
  | attributeError : ParseError
  | indexError : ParseError
deriving DecidableEq

namespace ArgvInput

open InputDefinition InputOption

/-- `ArgvInput.add_long_option(name, value)`: validates the option name,
optionally pulls one more raw token as the value (the `value is None and
option.accept_value() and len(self.__parsed)` block), applies the
required-value check and the default, and stores the value (appending for
array options). Returns the remaining raw tokens and the updated option
map. -/
def add_long_option (d : InputDefinition) (parsed : List String)
    (options : List (String × Val)) (name : String) (value : Val) :
    Except ParseError (List String × List (String × Val)) :=
  if ¬ has_option d name then .error (.longOptionDoesNotExist name) else
    let option := get_option d name
    let pulled : Val × List String :=
      if value.isNone && option.accept_value && !parsed.isEmpty then
        match parsed with
        | [] => (value, parsed)
        | nxt :: rest =>
          if decide (1 ≤ pyLen nxt) && pyStarts nxt "-" then (Val.str nxt, rest)
          else if nxt = "" then (Val.str "", rest)
          else (value, nxt :: rest)
      else (value, parsed)
    let value := pulled.1
    let parsed := pulled.2
    if value.isNone && option.is_value_required then
      .error (.optionRequiresValue name)
    else
      let value :=
        if value.isNone then
          if option.is_value_optional then option.default else Val.bool true
        else value
      if option.isArray then
        match Dict.lookup options name with
        | Option.none => .ok (parsed, Dict.insert options name (Val.list [value]))
        | Option.some (Val.list vs) =>
          .ok (parsed, Dict.insert options name (Val.list (vs ++ [value])))
        | Option.some _ => .error .attributeError
      else .ok (parsed, Dict.insert options name value)

/-- `ArgvInput.add_short_option(shortcut, value)`. -/
def add_short_option (d : InputDefinition) (parsed : List String)
    (options : List (String × Val)) (shortcut : String) (value : Val) :
    Except ParseError (List String × List (String × Val)) :=
  if ¬ has_shortcut d shortcut then .error (.shortOptionDoesNotExist shortcut)
  else add_long_option d parsed options (get_option_for_shortcut d shortcut).name value

/-- `ArgvInput.parse_long_option(token)`: strips `--`, splits on `=` if
present, otherwise peeks at the next raw token for value-accepting options
(pushing it back when it starts with `-`). The `value.startswith('-')`
test raises `AttributeError` when the pop hit `IndexError` and left
`value = None`. -/
def parse_long_option (d : InputDefinition) (parsed : List String)
    (options : List (String × Val)) (token : String) :
    Except ParseError (List String × List (String × Val)) :=
  let name := pyDropStr token 2
  match pyFindEq name with
  | Option.some pos =>
    add_long_option d parsed options (pyTakeStr name pos)
      (Val.str (pyDropStr name (pos + 1)))
  | Option.none =>
    if has_option d name ∧ (get_option d name).accept_value then
      match parsed with
      | [] => .error .attributeError
      | v :: rest =>
        if pyStarts v "-" then add_long_option d (v :: rest) options name Val.none
        else add_long_option d rest options name (Val.str v)
    else add_long_option d parsed options name Val.none

/-- `ArgvInput.parse_short_option_set(name)`: short-flag clustering; each
character is tried as a boolean shortcut until the first value-accepting
one, which swallows the rest of the cluster (or `None` when it is last). -/
def parse_short_option_set (d : InputDefinition) (parsed : List String)
    (options : List (String × Val)) : List Char →
    Except ParseError (List String × List (String × Val))
  | [] => .ok (parsed, options)
  | c :: rest =>
    let cs := String.mk [c]
    if ¬ has_shortcut d cs then .error (.shortOptionDoesNotExist cs) else
      let option := get_option_for_shortcut d cs
      if option.accept_value then
        add_long_option d parsed options option.name
          (if rest = [] then Val.none else Val.str (String.mk rest))
      else
        match add_long_option d parsed options option.name (Val.bool true) with
        | .error e => .error e
        | .ok (parsed', options') => parse_short_option_set d parsed' options' rest

/-- `ArgvInput.parse_short_option(token)`: single shortcut with next-token
lookahead, shortcut-with-glued-value, or a cluster. -/
def parse_short_option (d : InputDefinition) (parsed : List String)
    (options : List (String × Val)) (token : String) :
    Except ParseError (List String × List (String × Val)) :=
  let name := pyDropStr token 1
  if 1 < pyLen name then
    if has_shortcut d (pyTakeStr name 1) ∧
        (get_option_for_shortcut d (pyTakeStr name 1)).accept_value then
      add_short_option d parsed options (pyTakeStr name 1) (Val.str (pyDropStr name 1))
    else parse_short_option_set d parsed options name.data
  else
    if has_shortcut d name ∧ (get_option_for_shortcut d name).accept_value then
      match parsed with
      | [] => .error .attributeError
      | v :: rest =>
        if pyStarts v "-" then add_short_option d (v :: rest) options name Val.none
        else add_short_option d rest options name (Val.str v)
    else add_short_option d parsed options name Val.none

/-- `ArgvInput.parse_argument(token)`: binds the token to the next
undefined argument slot, or appends to a trailing array slot. The Python
`c - 1` index is guarded by `0 < c` (for `c = 0` the missing slot already
failed the first test, and the spec (§4.2) prescribes the
too-many-arguments failure). -/
def parse_argument (d : InputDefinition) (args : List (String × Val))
    (token : String) : Except ParseError (List (String × Val)) :=
  let c := args.length
  if has_argument d c then
    let arg := get_argument d c
    .ok (Dict.insert args arg.name
      (if arg.isArray then Val.list [Val.str token] else Val.str token))
  else if 0 < c ∧ has_argument d (c - 1) ∧ (get_argument d (c - 1)).isArray then
    let arg := get_argument d (c - 1)
    match Dict.lookup args arg.name with
    | Option.some (Val.list vs) =>
      .ok (Dict.insert args arg.name (Val.list (vs ++ [Val.str token])))
    | _ => .error .attributeError
  else .error .tooManyArguments

/-- The `while True` loop of `ArgvInput.parse`. The `fuel` argument bounds
the number of iterations; every iteration consumes at least the token it
popped, so `parse` passes enough fuel for the zero-fuel branch to be
unreachable (it is only well-typed, returning the state unchanged). -/
def parseLoop (d : InputDefinition) : Nat → Bool → List String →
    List (String × Val) → List (String × Val) →
    Except ParseError (List String × List (String × Val) × List (String × Val))
  | 0, _, parsed, args, opts => .ok (parsed, args, opts)
  | fuel + 1, parseOptions, parsed, args, opts =>
    match parsed with
    | [] => .ok ([], args, opts)
    | token :: rest =>
      if parseOptions ∧ token = "" then
        match parse_argument d args token with
        | .error e => .error e
        | .ok args' => parseLoop d fuel parseOptions rest args' opts
      else if parseOptions ∧ token = "--" then
        parseLoop d fuel false rest args opts
      else if parseOptions ∧ pyStarts token "--" then
        match parse_long_option d rest opts token with
        | .error e => .error e
        | .ok (rest', opts') => parseLoop d fuel parseOptions rest' args opts'
      else if parseOptions ∧ pyStarts token "-" then
        match parse_short_option d rest opts token with
        | .error e => .error e
        | .ok (rest', opts') => parseLoop d fuel parseOptions rest' args opts'
      else
        match parse_argument d args token with
        | .error e => .error e
        | .ok args' => parseLoop d fuel parseOptions rest args' opts

/-- `ArgvInput.parse()`: runs the token loop over the stored raw tokens
(`self.__parsed = self.__tokens` aliases the two, so the surviving token
list is returned alongside the bound argument and option maps). -/
def parse (d : InputDefinition) (tokens : List String) :
    Except ParseError (List String × List (String × Val) × List (String × Val)) :=
  parseLoop d (tokens.length + 1) true tokens [] []

end ArgvInput

/-! ### ArgvInput as a stateful object -/

/-- The mutable state of an `ArgvInput`: the stored raw token list
(`self.__tokens`; `self.__parsed` aliases it once `parse` starts) and the
bound argument and option maps. -/
structure ArgvState where
  tokens : List String
  arguments : List (String × Val) := []
  options : List (String × Val) := []

namespace ArgvInput

/-- Modelled from the spec: `Input.bind(definition)` (file `input.py`,
absent from `src/`): an Input is "constructed empty, populated by the
Tokenizer" (§3), so binding resets the argument and option maps and runs
`parse` over the stored tokens. Because `self.__parsed = self.__tokens`
aliases the two lists, the tokens surviving `parse` (always none on
success) become the new stored token list. -/
def bind (st : ArgvState) (d : InputDefinition) : Except ParseError ArgvState :=
  match parse d st.tokens with
  | .error e => .error e
  | .ok (tokens', args, opts) =>
    .ok { tokens := tokens', arguments := args, options := opts }

/-- `ArgvInput.get_first_argument()`: the first stored token that is not a
flag (empty tokens are returned too, since `if token and token[0] == '-'`
skips only non-empty dash tokens). -/
def get_first_argument (st : ArgvState) : Option String :=
  st.tokens.find? (fun t => !(t ≠ "" && pyStarts t "-"))

/-- `ArgvInput.has_parameter_option(values)`: scans the stored tokens for
an exact match without mutating them; the unchanged token list is returned
alongside the answer to make the absence of a frame effect explicit. -/
def has_parameter_option (st : ArgvState) (values : List String) :
    Bool × List String :=
  (st.tokens.any (fun t => values.contains t), st.tokens)

/-- The destructive scanning loop of `ArgvInput.get_parameter_option`:
pops tokens (from the list shared with `self.__tokens`) until one starts
with one of the given flag spellings; on a match it returns the slice of
the token up to and including `=` if the token contains `=`, else pops and
returns the following token (raising `IndexError` when there is none). -/
def gpoLoop (values : List String) (default : Val) : List String →
    Except ParseError (Val × List String)
  | [] => .ok (default, [])
  | token :: rest =>
    if values.any (fun v => pyStarts token v) then
      match pyFindEq token with
      | Option.some pos => .ok (Val.str (pyTakeStr token (pos + 1)), rest)
      | Option.none =>
        match rest with
        | [] => .error .indexError
        | r :: rs => .ok (Val.str r, rs)
    else gpoLoop values default rest

/-- `ArgvInput.get_parameter_option(values, default)`: returns the value
attached to the first matching flag together with the tokens that survive
the destructive scan (`tokens = self.__tokens` aliases the stored list, so
every popped token is gone for good). -/
def get_parameter_option (st : ArgvState) (values : List String)
    (default : Val) : Except ParseError (Val × List String) :=
  gpoLoop values default st.tokens

end ArgvInput

/-! ### Suggestion engine -/

/-- Recursive Levenshtein distance on character lists, with a fuel
argument making the triple recursion structural. Called with fuel at least
the sum of both lengths the zero-fuel branch is only reachable with both
lists empty (where it correctly returns 0): every recursive call reduces
the total length by at least one and the fuel by exactly one. -/
def levFuel : Nat → List Char → List Char → Nat
  | 0, as, bs => as.length + bs.length
  | _ + 1, [], bs => bs.length
  | _ + 1, a :: as, [] => (a :: as).length
  | fuel + 1, a :: as, b :: bs =>
    if a = b then levFuel fuel as bs
    else 1 + min (levFuel fuel as bs)
            (min (levFuel fuel (a :: as) bs) (levFuel fuel as (b :: bs)))

/-- Modelled from the spec: `Levenshtein.distance` from the external
`python-Levenshtein` package (§4.3: "case-sensitive edit distance
(Levenshtein)"). -/
def Levenshtein.distance (a b : String) : Nat :=
  levFuel (a.data.length + b.data.length) a.data b.data

/-- Stable insertion into a list sorted by the numeric component: the new
element goes before the first strictly larger key, hence after existing
equal keys. -/
def insertByVal (x : String × Nat) : List (String × Nat) → List (String × Nat)
  | [] => [x]
  | y :: ys => if x.2 ≤ y.2 then x :: y :: ys else y :: insertByVal x ys

/-- Python's stable `sorted(items, key=lambda x: x[1])`. -/
def sortByVal : List (String × Nat) → List (String × Nat)
  | [] => []
  | x :: xs => insertByVal x (sortByVal xs)

/-- The qualification test of `Application.find_alternatives`: the edit
distance is at most `len(name) / 3` (Python 2 floor division) or the
candidate contains `name` as a substring (`item.find(name) != -1`). -/
def qualifies (name item : String) : Bool :=
  decide (Levenshtein.distance name item ≤ pyLen name / 3) || pyContains item name

/-- One step of the direct pass of `Application.find_alternatives`:
record a qualifying collection item under its edit distance. -/
def altStep (name : String) (acc : List (String × Nat)) (item : String) :
    List (String × Nat) :=
  if qualifies name item then Dict.insert acc item (Levenshtein.distance name item)
  else acc

/-- One step of the fallback pass of `Application.find_alternatives`:
for a qualifying abbreviation key, record every name it maps to under the
key's (not the name's) edit distance. -/
def fbStep (name : String) (acc : List (String × Nat)) (kv : String × List String) :
    List (String × Nat) :=
  if qualifies name kv.1 then
    kv.2.foldl (fun a v => Dict.insert a v (Levenshtein.distance name kv.1)) acc
  else acc

/-- `Application.find_alternatives(name, collection, abbrevs)`: collects
every qualifying collection item; when none qualifies it falls back to
the abbreviation-table keys, admitting all names mapped by a qualifying
key; the result is sorted by ascending recorded distance (stably). The
`callback` of the Python signature is applied by the callers, so
`collection` is already a list of strings here. -/
def find_alternatives (name : String) (collection : List String)
    (abbrevs : List (String × List String)) : List String :=
  let alts : List (String × Nat) := collection.foldl (altStep name) []
  let alts := if alts.isEmpty then abbrevs.foldl (fbStep name) [] else alts
  (sortByVal alts).map (·.1)

/-! ### Command registry and resolver: `src/console/application.py` -/

/-- The slice of `Command` (`src/console/command/command.py`) the registry
and resolver observe: primary name, aliases, and the `is_enabled`
predicate (`True` unless a subclass overrides it). -/
structure Cmd where
  name : String
  aliases : List String := []
  enabled : Bool := true

/-- The resolver-relevant state of an `Application`: the command registry
(dict mapping every name and alias to its command) and the `__want_helps`
flag consumed by `get`. -/
structure App where
  commands : List (String × Cmd) := []
  want_helps : Bool := false

/-- The exceptions `Application.get/find/find_namespace` can raise,
with their structured payloads (the candidate/suggestion content that the
Python code interpolates into the message strings). -/
inductive AppError : Type where
  | commandDoesNotExist : String → AppError
  | commandNotDefined : String → List String → AppError
  | commandAmbiguous : String → String → AppError
  | namespaceNotFound : String → List String → AppError
  | namespaceAmbiguous : String → String → AppError

namespace Application

/-- `Application.add(command)`: refuses disabled commands, otherwise
registers the command under its primary name and under every alias
(silently overwriting colliding entries). -/
def add (app : App) (c : Cmd) : App :=
  if !c.enabled then app
  else
    let cmds := Dict.insert app.commands c.name c
    { app with commands := c.aliases.foldl (fun d a => Dict.insert d a c) cmds }

/-- `Application.get(name)`: registry lookup; when `__want_helps` is set
the registered `help` command is returned instead (pre-configured with the
requested command — a mutation this value-level model does not track,
along with the resetting of the flag itself). -/
def get (app : App) (name : String) : Except AppError Cmd :=
  match Dict.lookup app.commands name with
  | Option.none => .error (.commandDoesNotExist name)
  | Option.some command =>
    if app.want_helps then
      match Dict.lookup app.commands "help" with
      | Option.none => .error (.commandDoesNotExist "help")
      | Option.some h => .ok h
    else .ok command

/-- `Application.extract_namespace(name)` (no `limit`, as used by the
resolver): drop the last colon-segment and re-join. -/
def extract_namespace (name : String) : String :=
  joinColon (pySplit name).dropLast

/-- `Application.get_namespaces()`: the namespace of every registered
name and alias, deduplicated. -/
def get_namespaces (app : App) : List String :=
  pyDedup ((Dict.values app.commands).foldl
    (fun acc c =>
      (acc ++ [extract_namespace c.name]) ++ c.aliases.map extract_namespace)
    [])

/-- The inner `while l > 0` loop of `Application.get_abbreviations`:
append `name` to the bucket of each of its nonempty prefixes, from the
longest (`name[:l]`) down to `name[:1]`. -/
def addPrefixes (d : List (String × List String)) (name : String) :
    Nat → List (String × List String)
  | 0 => d
  | l + 1 =>
    addPrefixes
      (Dict.insert d (pyTakeStr name (l + 1))
        (((Dict.lookup d (pyTakeStr name (l + 1))).getD []) ++ [name]))
      name l

/-- `Application.get_abbreviations(names)`: bucket every name under each
of its nonempty prefixes, then re-map each full name to the singleton
containing itself. -/
def get_abbreviations (names : List String) : List (String × List String) :=
  let d := names.foldl (fun d name => addPrefixes d name (pyLen name)) []
  names.foldl (fun d name => Dict.insert d name [name]) d

/-- `Application.get_abbreviation_suggestions(abbrevs)`: the first two
candidates, with an "and N more" tail beyond two. -/
def get_abbreviation_suggestions (abbrevs : List String) : String :=
  abbrevs.getD 0 "" ++ ", " ++ abbrevs.getD 1 "" ++
    (if 2 < abbrevs.length then " and " ++ toString (abbrevs.length - 2) ++ " more"
     else "")

/-- The `for i, part in enumerate(namespace.split(':'))` loop of
`Application.find_namespace`: expand each segment through the abbreviation
table of the i-th segments of every known namespace. -/
def fnLoop (app : App) (namespace_ : String) (allNs : List (List String)) :
    List String → Nat → List String → Except AppError (List String)
  | [], _, found => .ok found
  | part :: restParts, i, found =>
    let cands := pyDedup ((allNs.map (fun p => p.getD i "")).filter (· ≠ ""))
    let abbrevs := get_abbreviations cands
    match Dict.lookup abbrevs part with
    | Option.none =>
      let part' := if 1 ≤ i then joinColon found ++ ":" ++ part else part
      .error (.namespaceNotFound namespace_
        (find_alternatives part' (get_namespaces app) abbrevs))
    | Option.some l =>
      if 1 < l.length then
        .error (.namespaceAmbiguous namespace_ (get_abbreviation_suggestions l))
      else fnLoop app namespace_ allNs restParts (i + 1) (found ++ [l.getD 0 ""])

/-- `Application.find_namespace(namespace)`: expand every colon-segment of
the requested namespace against the registered namespaces and re-join. -/
def find_namespace (app : App) (namespace_ : String) : Except AppError String :=
  let allNs := (get_namespaces app).map pySplit
  match fnLoop app namespace_ allNs (pySplit namespace_) 0 [] with
  | .error e => .error e
  | .ok found => .ok (joinColon found)

/-- `Application.find(name)`: resolve the namespace portion (before the
first colon) if present, search primary command names restricted to the
resolved namespace through the abbreviation table, then aliases (whose
candidate filter compares each alias's namespace against the alias
itself), and fail with suggestions when both miss. -/
def find (app : App) (name : String) : Except AppError Cmd :=
  let pos := findCharIdx ':' name.data
  let nsResult : Except AppError (String × String) :=
    match pos with
    | Option.none => .ok ("", name)
    | Option.some p =>
      match find_namespace app (pyTakeStr name p) with
      | .error e => .error e
      | .ok ns => .ok (ns, ns ++ pyDropStr name p)
  match nsResult with
  | .error e => .error e
  | .ok (namespace_, search_name) =>
    let commandNames :=
      (Dict.values app.commands).foldl (fun acc c =>
        let en := extract_namespace c.name
        if en == namespace_ || (namespace_ ≠ "" && pyStarts en namespace_) then
          acc ++ [c.name]
        else acc) []
    let abbrevs := get_abbreviations (pyDedup commandNames)
    match Dict.lookup abbrevs search_name with
    | Option.some l =>
      if l.length == 1 then get app (l.getD 0 "")
      else .error (.commandAmbiguous name (get_abbreviation_suggestions l))
    | Option.none =>
      let aliasNames :=
        (Dict.values app.commands).foldl (fun acc c =>
          c.aliases.foldl (fun acc a =>
            let en := extract_namespace a
            if en == a || (namespace_ ≠ "" && pyStarts en namespace_) then
              acc ++ [a]
            else acc) acc) []
      let aliases := get_abbreviations (pyDedup aliasNames)
      match Dict.lookup aliases search_name with
      | Option.none =>
        .error (.commandNotDefined name
          (find_alternatives search_name ((Dict.values app.commands).map (·.name))
            abbrevs))
      | Option.some l =>
        if 1 < l.length then
          .error (.commandAmbiguous name (get_abbreviation_suggestions l))
        else get app (l.getD 0 "")

end Application

/-- Modelled from the spec: `HelpCommand` (file `help_command.py`, absent
from `src/`): the built-in command registered under the name `help`, with
no aliases, always enabled (§1, §4.4 step 2). -/
def helpCommand : Cmd := { name := "help" }

/-- `ListCommand` (`src/console/command/list_command.py`): registered
under the name `list`, no aliases, always enabled. -/
def listCommand : Cmd := { name := "list" }

/-- `Application.__init__` registers the default commands
(`get_default_commands`: help then list) into an empty registry. -/
def defaultApp : App :=
  Application.add (Application.add { } helpCommand) listCommand

/-! ### Facts about the string primitives -/

theorem isPfx_refl (l : List Char) : isPfx l l = true := by
  induction l with
  | nil => rfl
  | cons a as ih => simp [isPfx, ih]

theorem isPfx_length_le {p s : List Char} (h : isPfx p s = true) :
    p.length ≤ s.length := by
  induction p generalizing s with
  | nil => simp
  | cons a as ih =>
    cases s with
    | nil => simp [isPfx] at h
    | cons b bs =>
      simp only [isPfx, Bool.and_eq_true] at h
      have := ih h.2
      simp only [List.length_cons]
      omega

theorem isPfx_eq_take {p s : List Char} (h : isPfx p s = true) :
    p = s.take p.length := by
  induction p generalizing s with
  | nil => simp
  | cons a as ih =>
    cases s with
    | nil => simp [isPfx] at h
    | cons b bs =>
      simp only [isPfx, Bool.and_eq_true, decide_eq_true_eq] at h
      simpa [List.take] using ⟨h.1, ih h.2⟩

theorem isPfx_take (n : Nat) (s : List Char) : isPfx (s.take n) s = true := by
  induction s generalizing n with
  | nil => cases n <;> rfl
  | cons b bs ih =>
    cases n with
    | zero => rfl
    | succ m => simpa [List.take, isPfx] using ih m

theorem pyStarts_refl (s : String) : pyStarts s s = true := isPfx_refl s.data

theorem pyLen_le_of_starts {n q : String} (h : pyStarts n q = true) :
    pyLen q ≤ pyLen n := isPfx_length_le h

theorem eq_take_of_starts {n q : String} (h : pyStarts n q = true) :
    q = pyTakeStr n (pyLen q) := String.ext (isPfx_eq_take h)

theorem starts_take (n : String) (k : Nat) : pyStarts n (pyTakeStr n k) = true :=
  isPfx_take k n.data

theorem pyLen_take (n : String) (k : Nat) : pyLen (pyTakeStr n k) = min k (pyLen n) :=
  List.length_take k n.data

theorem eq_empty_of_pyLen_eq_zero {q : String} (h : pyLen q = 0) : q = "" :=
  String.ext (List.length_eq_zero.mp h)

/-! ### Characterizing `Application.get_abbreviations` -/

/-- Appending candidates to an optional bucket, as the abbreviation
lemmas below accumulate them. -/
def optAppend (o : Option (List String)) (l : List String) : Option (List String) :=
  match l with
  | [] => o
  | _ => Option.some (o.getD [] ++ l)

theorem optAppend_push (o : Option (List String)) (n : String) (rf : List String) :
    optAppend (Option.some (o.getD [] ++ [n])) rf = optAppend o (n :: rf) := by
  cases rf <;> simp [optAppend]

namespace Application

theorem lookup_addPrefixes (name : String) :
    ∀ (l : Nat), l ≤ pyLen name → ∀ (d : List (String × List String)) (q : String),
    Dict.lookup (addPrefixes d name l) q =
      if q ≠ "" ∧ pyStarts name q = true ∧ pyLen q ≤ l then
        Option.some (((Dict.lookup d q).getD []) ++ [name])
      else Dict.lookup d q := by
  intro l
  induction l with
  | zero =>
    intro _ d q
    rw [addPrefixes, if_neg]
    rintro ⟨hne, _, hle⟩
    exact hne (eq_empty_of_pyLen_eq_zero (Nat.le_zero.mp hle))
  | succ l ih =>
    intro hl d q
    have hk : pyLen (pyTakeStr name (l + 1)) = l + 1 := by
      rw [pyLen_take]; omega
    rw [addPrefixes, ih (by omega)]
    by_cases hq1 : q ≠ "" ∧ pyStarts name q = true
    · by_cases hq2 : pyLen q ≤ l
      · have hne : q ≠ pyTakeStr name (l + 1) := by
          intro he; rw [he, hk] at hq2; omega
        rw [if_pos ⟨hq1.1, hq1.2, hq2⟩, if_pos ⟨hq1.1, hq1.2, by omega⟩,
          Dict.lookup_insert_ne _ _ _ _ hne]
      · by_cases hq3 : pyLen q = l + 1
        · have he : q = pyTakeStr name (l + 1) := by
            rw [eq_take_of_starts hq1.2, hq3]
          rw [if_neg (by rintro ⟨_, _, h3⟩; omega),
            if_pos ⟨hq1.1, hq1.2, by omega⟩, he, Dict.lookup_insert_self]
        · have hne : q ≠ pyTakeStr name (l + 1) := by
            intro he; rw [he, hk] at hq3; omega
          rw [if_neg (by rintro ⟨_, _, h3⟩; omega),
            if_neg (by rintro ⟨_, _, h3⟩; omega),
            Dict.lookup_insert_ne _ _ _ _ hne]
    · have hkne : pyTakeStr name (l + 1) ≠ "" := by
        intro hz
        have h0 : pyLen ("" : String) = 0 := rfl
        rw [hz, h0] at hk
        omega
      have hne : q ≠ pyTakeStr name (l + 1) := by
        intro he
        exact hq1 ⟨by rw [he]; exact hkne, by rw [he]; exact starts_take name (l + 1)⟩
      rw [if_neg (by rintro ⟨h1, h2, _⟩; exact hq1 ⟨h1, h2⟩),
        if_neg (by rintro ⟨h1, h2, _⟩; exact hq1 ⟨h1, h2⟩),
        Dict.lookup_insert_ne _ _ _ _ hne]

theorem lookup_prefixFold (q : String) (hq : q ≠ "") :
    ∀ (names : List String) (d : List (String × List String)),
    Dict.lookup (names.foldl (fun d n => addPrefixes d n (pyLen n)) d) q =
      optAppend (Dict.lookup d q) (names.filter (fun n => pyStarts n q)) := by
  intro names
  induction names with
  | nil => intro d; simp [optAppend]
  | cons n rest ih =>
    intro d
    simp only [List.foldl_cons]
    rw [ih, lookup_addPrefixes n (pyLen n) (Nat.le_refl _)]
    by_cases hs : pyStarts n q = true
    · rw [if_pos ⟨hq, hs, pyLen_le_of_starts hs⟩]
      simp only [List.filter_cons, hs, if_pos]
      exact optAppend_push (Dict.lookup d q) n _
    · rw [if_neg (by rintro ⟨_, hs', _⟩; exact hs hs')]
      simp only [List.filter_cons]
      rw [if_neg (by simpa using hs)]

theorem lookup_singleFold_not_mem (q : String) :
    ∀ (names : List String) (d : List (String × List String)), q ∉ names →
    Dict.lookup (names.foldl (fun d m => Dict.insert d m [m]) d) q =
      Dict.lookup d q := by
  intro names
  induction names with
  | nil => intro d _; rfl
  | cons m rest ih =>
    intro d h
    simp only [List.foldl_cons]
    rw [ih _ (fun hm => h (List.mem_cons_of_mem m hm)),
      Dict.lookup_insert_ne _ _ _ _
        (fun he => h (by rw [he]; exact List.mem_cons_self m rest))]

theorem lookup_singleFold_mem (q : String) :
    ∀ (names : List String) (d : List (String × List String)), q ∈ names →
    Dict.lookup (names.foldl (fun d m => Dict.insert d m [m]) d) q =
      Option.some [q] := by
  intro names
  induction names with
  | nil => intro d h; cases h
  | cons m rest ih =>
    intro d h
    simp only [List.foldl_cons]
    by_cases hr : q ∈ rest
    · exact ih _ hr
    · have hm : q = m := by
        rcases List.mem_cons.mp h with he | hr' 
        · exact he
        · exact absurd hr' hr
      rw [lookup_singleFold_not_mem q rest _ hr, hm, Dict.lookup_insert_self]

theorem lookup_get_abbreviations_mem (names : List String) (n : String)
    (h : n ∈ names) :
    Dict.lookup (get_abbreviations names) n = Option.some [n] := by
  simp only [get_abbreviations]
  exact lookup_singleFold_mem n names _ h

theorem lookup_get_abbreviations_not_mem (names : List String) (q : String)
    (hq : q ≠ "") (h : q ∉ names) :
    Dict.lookup (get_abbreviations names) q =
      optAppend Option.none (names.filter (fun n => pyStarts n q)) := by
  simp only [get_abbreviations]
  rw [lookup_singleFold_not_mem q names _ h, lookup_prefixFold q hq names []]
  rfl

end Application

/-! ### Facts about the suggestion engine -/

theorem mem_insertByVal (a x : String × Nat) :
    ∀ (l : List (String × Nat)), a ∈ insertByVal x l ↔ a = x ∨ a ∈ l := by
  intro l
  induction l with
  | nil => simp [insertByVal]
  | cons y ys ih =>
    by_cases h : x.2 ≤ y.2
    · simp [insertByVal, h]
    · simp only [insertByVal, if_neg h, List.mem_cons, ih]
      tauto

theorem pairwise_insertByVal (x : String × Nat) :
    ∀ (l : List (String × Nat)), List.Pairwise (fun p q => p.2 ≤ q.2) l →
    List.Pairwise (fun p q => p.2 ≤ q.2) (insertByVal x l) := by
  intro l
  induction l with
  | nil => intro _; simp [insertByVal]
  | cons y ys ih =>
    intro h
    rcases List.pairwise_cons.mp h with ⟨hy, hys⟩
    by_cases hle : x.2 ≤ y.2
    · rw [insertByVal, if_pos hle]
      refine List.pairwise_cons.mpr ⟨?_, h⟩
      intro z hz
      rcases List.mem_cons.mp hz with he | hz'
      · rw [he]; exact hle
      · exact Nat.le_trans hle (hy z hz')
    · rw [insertByVal, if_neg hle]
      refine List.pairwise_cons.mpr ⟨?_, ih hys⟩
      intro z hz
      rcases (mem_insertByVal z x ys).mp hz with he | hz'
      · rw [he]; omega
      · exact hy z hz'

theorem sortByVal_pairwise :
    ∀ (l : List (String × Nat)),
    List.Pairwise (fun p q => p.2 ≤ q.2) (sortByVal l) := by
  intro l
  induction l with
  | nil => simp [sortByVal]
  | cons x xs ih => exact pairwise_insertByVal x (sortByVal xs) ih

theorem mem_sortByVal (a : String × Nat) :
    ∀ (l : List (String × Nat)), a ∈ sortByVal l ↔ a ∈ l := by
  intro l
  induction l with
  | nil => simp [sortByVal]
  | cons x xs ih =>
    rw [sortByVal, mem_insertByVal, ih, List.mem_cons]

/-- The entry the direct pass of `find_alternatives` records for a
collection item, if any. -/
def altEntry (name item : String) : Option (String × Nat) :=
  if qualifies name item then Option.some (item, Levenshtein.distance name item)
  else Option.none

theorem altsFold_eq (name : String) :
    ∀ (coll : List String) (acc : List (String × Nat)), coll.Nodup →
    (∀ x ∈ coll, Dict.lookup acc x = Option.none) →
    coll.foldl (altStep name) acc = acc ++ coll.filterMap (altEntry name) := by
  intro coll
  induction coll with
  | nil => intro acc _ _; simp
  | cons item rest ih =>
    intro acc hnd hacc
    rcases List.nodup_cons.mp hnd with ⟨hni, hnd'⟩
    simp only [List.foldl_cons, List.filterMap_cons]
    by_cases hq : qualifies name item = true
    · rw [altStep, if_pos hq]
      have hl : Dict.lookup acc item = Option.none := hacc item (List.mem_cons_self _ _)
      have hacc' : ∀ x ∈ rest, Dict.lookup (Dict.insert acc item
          (Levenshtein.distance name item)) x = Option.none := by
        intro y hy
        rw [Dict.lookup_insert_ne _ _ _ _ (fun he => hni (by rw [← he]; exact hy)),
          hacc y (List.mem_cons_of_mem item hy)]
      rw [ih _ hnd' hacc', Dict.insert_eq_append _ _ _ hl, altEntry, if_pos hq]
      simp
    · rw [altStep, if_neg hq]
      rw [ih acc hnd' (fun y hy => hacc y (List.mem_cons_of_mem item hy)),
        altEntry, if_neg hq]

theorem snd_of_mem_altsFilterMap (name : String) (coll : List String)
    (p : String × Nat) (h : p ∈ coll.filterMap (altEntry name)) :
    p.2 = Levenshtein.distance name p.1 := by
  rcases List.mem_filterMap.mp h with ⟨item, _, he⟩
  rw [altEntry] at he
  by_cases hq : qualifies name item = true
  · rw [if_pos hq] at he
    cases he
    rfl
  · rw [if_neg hq] at he
    cases he

/-! ### Facts about `get_parameter_option` -/

theorem gpoLoop_no_match (values : List String) (default : Val) :
    ∀ (tokens : List String),
    (∀ x ∈ tokens, values.any (fun v => pyStarts x v) = false) →
    ArgvInput.gpoLoop values default tokens = .ok (default, []) := by
  intro tokens
  induction tokens with
  | nil => intro _; rfl
  | cons t rest ih =>
    intro h
    simp only [ArgvInput.gpoLoop]
    rw [if_neg (by simp [h t (List.mem_cons_self _ _)])]
    exact ih (fun x hx => h x (List.mem_cons_of_mem t hx))

theorem gpoLoop_match (values : List String) (default : Val) (t : String)
    (post : List String) (ht : values.any (fun v => pyStarts t v) = true) :
    ∀ (pre : List String),
    (∀ x ∈ pre, values.any (fun v => pyStarts x v) = false) →
    ArgvInput.gpoLoop values default (pre ++ t :: post) =
      (match pyFindEq t with
       | Option.some pos => .ok (Val.str (pyTakeStr t (pos + 1)), post)
       | Option.none =>
         match post with
         | [] => .error ParseError.indexError
         | r :: rs => .ok (Val.str r, rs)) := by
  intro pre
  induction pre with
  | nil =>
    intro _
    rw [List.nil_append]
    simp only [ArgvInput.gpoLoop]
    rw [if_pos ht]
  | cons x xs ih =>
    intro h
    rw [List.cons_append]
    simp only [ArgvInput.gpoLoop]
    rw [if_neg (by simp [h x (List.mem_cons_self _ _)])]
    exact ih (fun y hy => h y (List.mem_cons_of_mem x hy))

/-! ### General behavior of `find_alternatives` (direct pass) -/

theorem find_alternatives_direct (name : String) (coll : List String)
    (abbrevs : List (String × List String)) (hnd : coll.Nodup)
    (hex : ∃ x ∈ coll, qualifies name x = true) :
    find_alternatives name coll abbrevs =
      (sortByVal (coll.filterMap (altEntry name))).map (·.1) := by
  simp only [find_alternatives]
  rw [altsFold_eq name coll [] hnd (fun x _ => rfl), List.nil_append]
  rcases hex with ⟨x, hx, hqx⟩
  have hm : (x, Levenshtein.distance name x) ∈ coll.filterMap (altEntry name) :=
    List.mem_filterMap.mpr ⟨x, hx, by rw [altEntry, if_pos hqx]⟩
  have hne : (coll.filterMap (altEntry name)).isEmpty = false := by
    cases hfm : coll.filterMap (altEntry name) with
    | nil => rw [hfm] at hm; cases hm
    | cons a l => rfl
  rw [hne]
  rfl

theorem find_alternatives_pairwise (name : String) (coll : List String)
    (abbrevs : List (String × List String)) (hnd : coll.Nodup)
    (hex : ∃ x ∈ coll, qualifies name x = true) :
    List.Pairwise
      (fun a b => Levenshtein.distance name a ≤ Levenshtein.distance name b)
      (find_alternatives name coll abbrevs) := by
  rw [find_alternatives_direct name coll abbrevs hnd hex]
  refine List.pairwise_map.mpr ?_
  have hp := sortByVal_pairwise (coll.filterMap (altEntry name))
  refine hp.imp_of_mem ?_
  intro a b ha hb hle
  have ha2 := snd_of_mem_altsFilterMap name coll a ((mem_sortByVal a _).mp ha)
  have hb2 := snd_of_mem_altsFilterMap name coll b ((mem_sortByVal b _).mp hb)
  rw [← ha2, ← hb2]
  exact hle

/-! ### Concrete fixtures for the claims -/

/-- The command of claim C1: name `a:b`, aliases `["x"]`, enabled. -/
def cmdAB : Cmd := { name := "a:b", aliases := ["x"] }

/-- An application with the default commands plus `cmdAB`. -/
def appC1 : App := Application.add defaultApp cmdAB

/-- The `db:migrate` command of claim C2. -/
def dbMigrate : Cmd := { name := "db:migrate" }

/-- The `db:seed` command of claim C2. -/
def dbSeed : Cmd := { name := "db:seed" }

/-- An application with the default commands plus `db:migrate` and
`db:seed`. -/
def appC2 : App := Application.add (Application.add defaultApp dbMigrate) dbSeed

/-- Claim C4's definition: one long option `foo` that accepts but does not
require a value, with default `"D"`. -/
def defC4 : InputDefinition :=
  { options := [{ name := "foo", mode := OptMode.valueOptional, default := Val.str "D" }] }

/-- Claim C4's second definition: a boolean shortcut `a`, a value-optional
shortcut `f` (default `"D"`), and one positional argument. -/
def defC4b : InputDefinition :=
  { arguments := [{ name := "arg1" }],
    options := [
      { name := "a", shortcut := Option.some "a" },
      { name := "f", shortcut := Option.some "f", mode := OptMode.valueOptional,
        default := Val.str "D" }] }

/-- Claim C5's definition: one value-required option `foo` with shortcut
`f`. -/
def defC5 : InputDefinition :=
  { options := [
      { name := "foo", shortcut := Option.some "f",
        mode := OptMode.valueRequired }] }

/-- Claim C6's definition: boolean shortcuts `a`, `b`, `c` and a
value-accepting shortcut `f`. -/
def defC6 : InputDefinition :=
  { options := [
      { name := "a", shortcut := Option.some "a" },
      { name := "b", shortcut := Option.some "b" },
      { name := "c", shortcut := Option.some "c" },
      { name := "f", shortcut := Option.some "f", mode := OptMode.valueRequired }] }

/-- Claim C8's definition: a single optional argument `name`. -/
def defC8 : InputDefinition := { arguments := [{ name := "name" }] }

/-! ### Claim theorems -/

/-- C1 (counterexample): with the enabled command `a:b` (aliases `["x"]`)
registered, `find("x")` does not return the command — it raises
`Command "x" is not defined.` (the alias candidate filter of
`Application.find` compares each alias's namespace with the alias itself,
so no alias ever enters the lookup pool) — and `find("a")`, although `a`
is an unambiguous prefix of `a:b` among all registered names, raises as
well (a query without a colon only searches root-namespace commands). -/
theorem spec_C1_counterexample :
    Application.find appC1 "x" = .error (.commandNotDefined "x" []) ∧
    Application.find appC1 "a" = .error (.commandNotDefined "a" ["a:b"]) :=
  ⟨rfl, rfl⟩

/-- C1 (amended): registering the enabled command `a:b` with aliases
`["x"]` makes it retrievable through `find("a:b")` and through the
unambiguous prefix that retains the namespace separator (`find("a:")`),
while `find("x")` and `find("a")` raise `Command ... is not defined.`. -/
theorem spec_C1 :
    Application.find appC1 "a:b" = .ok cmdAB ∧
    Application.find appC1 "a:" = .ok cmdAB ∧
    Application.find appC1 "x" = .error (.commandNotDefined "x" []) ∧
    Application.find appC1 "a" = .error (.commandNotDefined "a" ["a:b"]) :=
  ⟨rfl, rfl, rfl, rfl⟩

/-- C2 (counterexample): with exactly `db:migrate` and `db:seed` registered
besides the defaults, the query `d` is a prefix of two registered command
names and equal to none of them, yet `find("d")` raises
`Command "d" is not defined.` (with suggestions) rather than the
ambiguous-command error the claim requires: a colon-free query is only
matched against root-namespace commands. -/
theorem spec_C2_counterexample :
    pyStarts "db:migrate" "d" = true ∧ pyStarts "db:seed" "d" = true ∧
    ("d" : String) ≠ "db:migrate" ∧ ("d" : String) ≠ "db:seed" ∧
    Application.find appC2 "d" =
      .error (.commandNotDefined "d" ["db:seed", "db:migrate"]) :=
  ⟨rfl, rfl, by decide, by decide, rfl⟩

/-- C2 (amended): within the candidate pool the resolver actually searches
(command names filtered to the resolved namespace), the abbreviation table
maps a nonempty query that is a prefix of exactly one candidate to that
candidate alone, and a nonempty query that is a prefix of two or more
candidates and equal to none of them to the full sharing list; with
`db:migrate` and `db:seed` registered, `find("db:m")` returns `db:migrate`
and `find("db:")` raises the ambiguity error listing both sharing
candidates. -/
theorem spec_C2 :
    (∀ (names : List String) (q c : String), q ≠ "" →
      names.filter (fun n => pyStarts n q) = [c] →
      Dict.lookup (Application.get_abbreviations names) q = Option.some [c]) ∧
    (∀ (names : List String) (q : String), q ≠ "" → q ∉ names →
      2 ≤ (names.filter (fun n => pyStarts n q)).length →
      Dict.lookup (Application.get_abbreviations names) q =
        Option.some (names.filter (fun n => pyStarts n q))) ∧
    Application.find appC2 "db:m" = .ok dbMigrate ∧
    Application.find appC2 "db:" =
      .error (.commandAmbiguous "db:" "db:migrate, db:seed") := by
  refine ⟨?_, ?_, rfl, rfl⟩
  · intro names q c hq hf
    by_cases hm : q ∈ names
    · rw [Application.lookup_get_abbreviations_mem names q hm]
      have hqf : q ∈ names.filter (fun n => pyStarts n q) :=
        List.mem_filter.mpr ⟨hm, pyStarts_refl q⟩
      rw [hf] at hqf
      rw [List.mem_singleton.mp hqf]
    · rw [Application.lookup_get_abbreviations_not_mem names q hq hm, hf]
      simp [optAppend]
  · intro names q hq hm hlen
    rw [Application.lookup_get_abbreviations_not_mem names q hq hm]
    cases hf : names.filter (fun n => pyStarts n q) with
    | nil => rw [hf] at hlen; simp at hlen
    | cons a l => simp [optAppend]

/-- C2 (witness): the two general conjuncts of the amended claim applied
at concrete candidate sets: `a` is a prefix of exactly `ab` among
`[ab, cd]`, and of both `ab` and `ac` among `[ab, ac]`. -/
theorem spec_C2_witness :
    Dict.lookup (Application.get_abbreviations ["ab", "cd"]) "a" =
      Option.some ["ab"] ∧
    Dict.lookup (Application.get_abbreviations ["ab", "ac"]) "a" =
      Option.some ["ab", "ac"] := by
  constructor
  · exact spec_C2.1 ["ab", "cd"] "a" "ab" (by decide) rfl
  · exact spec_C2.2.1 ["ab", "ac"] "a" (by decide) (by decide) (by decide)

/-- C3: for every candidate list, `get_abbreviations` maps each
candidate's full string to the singleton list containing exactly that
candidate (the final re-mapping loop overrides any sharing bucket), so an
exact full-name match is never ambiguous. -/
theorem spec_C3 (names : List String) (n : String) (h : n ∈ names) :
    Dict.lookup (Application.get_abbreviations names) n = Option.some [n] :=
  Application.lookup_get_abbreviations_mem names n h

/-- C3 (witness): `a` is both a candidate and a proper prefix of the
candidate `ab`, yet its bucket is the singleton `[a]`. -/
theorem spec_C3_witness :
    ("a" : String) ∈ ["ab", "a"] ∧
    Dict.lookup (Application.get_abbreviations ["ab", "a"]) "a" =
      Option.some ["a"] :=
  ⟨by decide, spec_C3 ["ab", "a"] "a" (by decide)⟩

/-- C4 (code bug): the value-pulling guard of `add_long_option` is
inverted (`if len(nxt) >= 1 and nxt[0] == '-'` instead of `!= '-'`): a
flag-looking following token IS consumed as the value of a value-optional
long option (`--foo -x` binds `foo = "-x"`) while a non-flag following
token is pushed back and the option falls back to its default
(`-af bar` binds `f = "D"` and leaves `bar` to become an argument) —
the exact opposite of the claim. -/
theorem spec_C4 :
    ArgvInput.parse defC4 ["--foo", "-x"] =
      .ok ([], [], [("foo", Val.str "-x")]) ∧
    ArgvInput.parse defC4b ["-af", "bar"] =
      .ok ([], [("arg1", Val.str "bar")],
        [("a", Val.bool true), ("f", Val.str "D")]) :=
  ⟨rfl, rfl⟩

/-- C5 (code bug): a value-required option with no resolvable value does
not produce the missing-value error: when the option token is last,
`value.startswith('-')` is evaluated on `None` and raises
`AttributeError` (both for `--foo` and for the shortcut `-f`), and when a
flag-looking token follows, the inverted guard of `add_long_option`
silently binds it as the value instead of failing. -/
theorem spec_C5 :
    ArgvInput.parse defC5 ["--foo"] = .error ParseError.attributeError ∧
    ArgvInput.parse defC5 ["-f"] = .error ParseError.attributeError ∧
    ArgvInput.parse defC5 ["--foo", "-x"] =
      .ok ([], [], [("foo", Val.str "-x")]) :=
  ⟨rfl, rfl, rfl⟩

/-- C6: short-flag clustering: with boolean shortcuts `a`, `b`, `c` and a
value-accepting shortcut `f`, the token `-abc` binds `a`, `b` and `c` to
`True`, and the token `-abfVALUE` binds `a` and `b` to `True` and the
option of `f` to the cluster remainder `"VALUE"`. -/
theorem spec_C6 :
    ArgvInput.parse defC6 ["-abc"] =
      .ok ([], [], [("a", Val.bool true), ("b", Val.bool true),
        ("c", Val.bool true)]) ∧
    ArgvInput.parse defC6 ["-abfVALUE"] =
      .ok ([], [], [("a", Val.bool true), ("b", Val.bool true),
        ("f", Val.str "VALUE")]) :=
  ⟨rfl, rfl⟩

/-- C7 (counterexample): `find_alternatives` does not always return
exactly the candidates within the distance/substring criterion: when no
candidate qualifies it falls back to the abbreviation keys, so the query
`ab` against the single candidate `zz` (distance 2 > 2/3 = 0, not a
substring) still returns `["zz"]` because the abbreviation key `abc`
contains the query and maps to `zz`. -/
theorem spec_C7_counterexample :
    find_alternatives "ab" ["zz"] [("abc", ["zz"])] = ["zz"] ∧
    qualifies "ab" "zz" = false :=
  ⟨rfl, rfl⟩

/-- C7 (amended): when at least one candidate qualifies (edit distance at
most one third of the query length, Python floor division, or containing
the query as a substring), `find_alternatives` returns exactly the
qualifying candidates ordered by ascending edit distance (stably, ties in
discovery order); when no candidate qualifies it instead returns the
names mapped by qualifying abbreviation keys. `hlp` against `help` yields
`["help"]`; `zzzzzzzzzz` against `help` yields no suggestion. -/
theorem spec_C7 :
    (∀ (name : String) (coll : List String)
        (abbrevs : List (String × List String)), coll.Nodup →
      (∃ x ∈ coll, qualifies name x = true) →
      find_alternatives name coll abbrevs =
        (sortByVal (coll.filterMap (altEntry name))).map (·.1)) ∧
    (∀ (name : String) (coll : List String)
        (abbrevs : List (String × List String)), coll.Nodup →
      (∃ x ∈ coll, qualifies name x = true) →
      List.Pairwise
        (fun a b => Levenshtein.distance name a ≤ Levenshtein.distance name b)
        (find_alternatives name coll abbrevs)) ∧
    find_alternatives "hlp" ["help"] (Application.get_abbreviations ["help"]) =
      ["help"] ∧
    find_alternatives "zzzzzzzzzz" ["help"]
      (Application.get_abbreviations ["help"]) = [] :=
  ⟨find_alternatives_direct, find_alternatives_pairwise, rfl, rfl⟩

/-- C7 (witness): the two general conjuncts of the amended claim applied
at the claim's own concrete scenario (`hlp` against the single candidate
`help`, which qualifies at distance 1 ≤ 3/3). -/
theorem spec_C7_witness :
    find_alternatives "hlp" ["help"] [] =
      (sortByVal ((["help"] : List String).filterMap (altEntry "hlp"))).map (·.1) ∧
    List.Pairwise
      (fun a b => Levenshtein.distance "hlp" a ≤ Levenshtein.distance "hlp" b)
      (find_alternatives "hlp" ["help"] []) := by
  constructor
  · exact spec_C7.1 "hlp" ["help"] [] (by simp) ⟨"help", by simp, rfl⟩
  · exact spec_C7.2.1 "hlp" ["help"] [] (by simp) ⟨"help", by simp, rfl⟩

/-- C8 (code bug): binding is not idempotent: `parse` consumes the stored
raw tokens in place (`self.__parsed = self.__tokens` aliases the lists),
so after a first `bind` of `["hello"]` against a one-argument Definition
yields `name = "hello"`, a second `bind` of the same Input parses an empty
token list and yields no bound arguments at all. -/
theorem spec_C8 :
    ArgvInput.bind ⟨["hello"], [], []⟩ defC8 =
      .ok ⟨[], [("name", Val.str "hello")], []⟩ ∧
    ArgvInput.bind ⟨[], [("name", Val.str "hello")], []⟩ defC8 =
      .ok ⟨[], [], []⟩ ∧
    ([("name", Val.str "hello")] : List (String × Val)) ≠ [] := by
  refine ⟨rfl, rfl, by simp⟩

/-- C9 (code bug): for a matching token of the form `--name=value`,
`get_parameter_option` returns `token[:pos+1]` — the flag spelling
including the `=` — instead of the value after the `=`: with tokens
`["--env=dev"]` and spelling `--env` it returns `"--env="`, not `"dev"`. -/
theorem spec_C9 :
    ArgvInput.get_parameter_option ⟨["--env=dev"], [], []⟩ ["--env"]
      (Val.bool false) = .ok (Val.str "--env=", []) :=
  rfl

/-- C10 (counterexample): when the first matching token has no `=`,
`get_parameter_option` also pops the returned following token, not only
the scanned tokens up to and including the match: after the call on
`["--env", "dev", "rest"]` the stored tokens are `["rest"]`, not
`["dev", "rest"]`. -/
theorem spec_C10_counterexample :
    ArgvInput.get_parameter_option ⟨["--env", "dev", "rest"], [], []⟩ ["--env"]
      (Val.bool false) = .ok (Val.str "dev", ["rest"]) ∧
    (["rest"] : List String) ≠ ["dev", "rest"] := by
  refine ⟨rfl, by simp⟩

/-- C10 (amended): `get_parameter_option` permanently removes the scanned
tokens up to and including the first token starting with one of the flag
spellings and, when that token has no `=`, also the immediately following
token that it returns (raising `IndexError` if none follows); when no
token matches the entire sequence is consumed and the default returned;
`has_parameter_option` leaves the stored token sequence unchanged. -/
theorem spec_C10 :
    (∀ (st : ArgvState) (values : List String) (default : Val),
      (∀ x ∈ st.tokens, values.any (fun v => pyStarts x v) = false) →
      ArgvInput.get_parameter_option st values default = .ok (default, [])) ∧
    (∀ (st : ArgvState) (values : List String) (default : Val)
        (pre : List String) (t : String) (post : List String),
      st.tokens = pre ++ t :: post →
      (∀ x ∈ pre, values.any (fun v => pyStarts x v) = false) →
      values.any (fun v => pyStarts t v) = true →
      ArgvInput.get_parameter_option st values default =
        (match pyFindEq t with
         | Option.some pos => .ok (Val.str (pyTakeStr t (pos + 1)), post)
         | Option.none =>
           match post with
           | [] => .error ParseError.indexError
           | r :: rs => .ok (Val.str r, rs))) ∧
    (∀ (st : ArgvState) (values : List String),
      (ArgvInput.has_parameter_option st values).2 = st.tokens) := by
  refine ⟨?_, ?_, fun st values => rfl⟩
  · intro st values default h
    exact gpoLoop_no_match values default st.tokens h
  · intro st values default pre t post he hpre ht
    rw [ArgvInput.get_parameter_option, he]
    exact gpoLoop_match values default t post ht pre hpre

/-- C10 (witness): the matched-flag conjunct of the amended claim at the
concrete input `["--env", "dev", "rest"]` (flag first, so the no-match
hypothesis over the preceding tokens is vacuous), and the no-match
conjunct at `["zz"]`. -/
theorem spec_C10_witness :
    ArgvInput.get_parameter_option ⟨["--env", "dev", "rest"], [], []⟩ ["--env"]
      (Val.bool false) = .ok (Val.str "dev", ["rest"]) ∧
    ArgvInput.get_parameter_option ⟨["zz"], [], []⟩ ["--env"] (Val.bool true) =
      .ok (Val.bool true, []) := by
  constructor
  · exact spec_C10.2.1 ⟨["--env", "dev", "rest"], [], []⟩ ["--env"]
      (Val.bool false) [] "--env" ["dev", "rest"] rfl (by intro x hx; cases hx) rfl
  · exact spec_C10.1 ⟨["zz"], [], []⟩ ["--env"] (Val.bool true)
      (by intro x hx; rw [List.mem_singleton.mp hx]; rfl)
